import Mathlib

/-!
Shallow embedding of `src/ai_data_analyst.py`.

Python strings are modelled as `List Char`; `str.find` becomes `findSub`
(returning `Option Nat` instead of `-1` for "not found"), `in` becomes
`containsSub`, `str.strip()` becomes `trim`, and `str.startswith` becomes
`List.isPrefixOf`.  The remote completion service (Groq) and the analytical
engine (DuckDB) are external collaborators; they are modelled as function
parameters returning `Except`, so that the repository's own control flow
around them (fallback, try/except) is embedded faithfully.
-/

namespace AIDataAnalyst

/-- The backquote character, head of every fence delimiter. -/
def backtick : Char := Char.ofNat 96

/-- Model of Python `haystack.find(pat)`: index of the first occurrence of
`pat` as a contiguous substring, `none` when absent (Python returns `-1`). -/
def findSub (pat : List Char) : List Char → Option Nat
  | [] => if pat = [] then some 0 else none
  | c :: t => if pat.isPrefixOf (c :: t) then some 0 else (findSub pat t).map (· + 1)

/-- Model of Python `pat in haystack`. -/
def containsSub (pat s : List Char) : Bool := (findSub pat s).isSome

/-- Model of Python `s.strip()`: remove leading and trailing whitespace. -/
def trim (s : List Char) : List Char :=
  ((s.dropWhile Char.isWhitespace).reverse.dropWhile Char.isWhitespace).reverse

/-- The lower-case SQL fence opener of line 204. -/
def fenceL : List Char := "```sql".toList

/-- The upper-case SQL fence opener of line 208. -/
def fenceU : List Char := "```SQL".toList

/-- The plain closing fence searched for on lines 206 and 210. -/
def fenceClose : List Char := "```".toList

/-- The explanation marker checked on line 215. -/
def explMarker : List Char := "EXPLANATION:".toList

/-- The token checked by `reply.strip().startswith("SELECT")` on line 212. -/
def selectTok : List Char := "SELECT".toList

/-- Lines 205-207 (and 209-211 for the upper-case opener): find the first
occurrence of the opener `pat`, then the first `` ``` `` after it; the slice
between them is stripped.  With no closing fence, everything after the opener
is taken.  (Only called when `pat` occurs; returns `[]` otherwise.) -/
def extractBetween (reply pat : List Char) : List Char :=
  match findSub pat reply with
  | none => []
  | some i =>
    let rest := reply.drop (i + pat.length)
    match findSub fenceClose rest with
    | none => trim rest
    | some j => trim (rest.take j)

/-- Lines 203-213: the value bound to the Python variable `sql`
(`none` models `sql = None`). -/
def extractSql (reply : List Char) : Option (List Char) :=
  if containsSub fenceL reply then some (extractBetween reply fenceL)
  else if containsSub fenceU reply then some (extractBetween reply fenceU)
  else if selectTok.isPrefixOf (trim reply) then some (trim reply)
  else none

/-- The tagged union the spec calls `ParsedResult`. -/
inductive ParsedResult
  | Sql (s : List Char)
  | Explanation (s : List Char)
  | Unrecognized (raw : List Char)
  deriving DecidableEq, Repr

/-- Lines 203-217 and 240-243: the dispatch on the raw model reply.  The
`EXPLANATION:` check of line 215 wins over any extracted SQL; `elif sql:` is
Python truthiness, so an empty extracted string falls through to the
"could not extract" branch. -/
def parseReply (reply : List Char) : ParsedResult :=
  if explMarker.isPrefixOf (trim reply) then .Explanation reply
  else
    match extractSql reply with
    | some s => if s = [] then .Unrecognized reply else .Sql s
    | none => .Unrecognized reply

/-- Message roles of the chat payload built on lines 73-76. -/
inductive Role
  | system
  | user
  deriving DecidableEq, Repr

/-- Lines 73-76: the message list sent to the completion service. -/
def mkMessages (system user_msg : List Char) : List (Role × List Char) :=
  [(Role.system, system), (Role.user, user_msg)]

/-- Default model of line 71. -/
def defaultModel : List Char := "openai/gpt-oss-120b".toList

/-- Fallback model of line 84. -/
def fallbackModel : List Char := "meta-llama/llama-4-scout-17b-16e-instruct".toList

/-- Deprecated-family marker of line 82. -/
def mixtralMarker : List Char := "mixtral".toList

/-- Model of Python `s.lower()`. -/
def lowerStr (s : List Char) : List Char := s.map Char.toLower

/-- Lines 71-88, `call_groq_model`.  The remote service is abstracted as
`api : model → messages → Except E content` (`.error` models a raised
exception, `.ok` the first choice's message content).  On a primary failure
the fallback is attempted only when `"mixtral" in model.lower()`; the inner
`except: pass` followed by `raise e` re-raises the original exception when
the fallback also fails. -/
def call_groq_model {E : Type} (api : List Char → List (Role × List Char) → Except E (List Char))
    (system user_msg : List Char) (model : List Char := defaultModel) : Except E (List Char) :=
  let messages := mkMessages system user_msg
  match api model messages with
  | .ok content => .ok content
  | .error e =>
    if containsSub mixtralMarker (lowerStr model) then
      match api fallbackModel messages with
      | .ok content => .ok content
      | .error _ => .error e
    else .error e

/-- The tagged union the spec calls `ExecutionOutcome`: `Success` holds only
the result table, `Failure` holds the surfaced error message and the raw
model reply shown on lines 237-239. -/
inductive ExecutionOutcome (T : Type)
  | Success (result : T)
  | Failure (errMsg : List Char) (raw : List Char)
  deriving DecidableEq

/-- Line 237: the error text surfaced via `st.error`, a fixed prefix plus the
engine's message `str(e)` verbatim. -/
def sqlErrorText (e : List Char) : List Char := "❌ SQL Execution Error: ".toList ++ e

/-- Lines 220-239: run the extracted SQL against the analytical engine
(abstracted as `engine : sql → Except message table`).  The `try/except`
catches every engine failure and turns it into a `Failure` carrying the
surfaced message and the raw reply; nothing propagates. -/
def runSql {T : Type} (engine : List Char → Except (List Char) T)
    (sql raw : List Char) : ExecutionOutcome T :=
  match engine sql with
  | .ok res => .Success res
  | .error e => .Failure (sqlErrorText e) raw

/-- The in-memory dataset: ordered column names, their dtypes (parallel list),
and the rows.  Cells are rendered strings, which is all prompt construction
needs. -/
structure DataFrame where
  columns : List (List Char)
  dtypes : List (List Char)
  rows : List (List (List Char))

/-- Python `sep.join(xs)`. -/
def joinSep (sep : List Char) : List (List Char) → List Char
  | [] => []
  | [x] => x
  | x :: y :: xs => x ++ sep ++ joinSep sep (y :: xs)

/-- Line 189: the `f-string` rendering one `name(dtype)` pair. -/
def pairFmt (c d : List Char) : List Char := c ++ "(".toList ++ d ++ ")".toList

/-- Line 185: `df.head(10).to_csv(index=False)`.  `to_csv` itself is pandas
(an external collaborator); it is modelled as the header row plus the cell
rows, comma-joined, newline-separated, with a trailing newline. -/
def toCsv (df : DataFrame) : List Char :=
  joinSep "\n".toList (joinSep ",".toList df.columns :: df.rows.map (joinSep ",".toList))
    ++ "\n".toList

/-- Lines 174-182: the fixed system prompt. -/
def systemPrompt : List Char :=
  ("You are an expert SQL analyst. Your task is to generate SQL queries for data analysis.\n"
    ++ "Rules:\n"
    ++ "1) Always return a valid SQL query enclosed in ```sql``` fences\n"
    ++ "2) The table name is 'data_df'\n"
    ++ "3) If the question cannot be answered with SQL, provide an EXPLANATION: prefix instead\n"
    ++ "4) Never include markdown formatting in SQL blocks, just the pure SQL\n"
    ++ "5) Optimize for clarity and correctness\n").toList

/-- Lines 184-193: the user prompt, interpolating the full column list, the
full `name(dtype)` list, the CSV sample of `df.head(10)`, and the question. -/
def buildUserMsg (df : DataFrame) (query : List Char) : List Char :=
  "Dataset Info:\nColumns: ".toList
    ++ joinSep ", ".toList df.columns
    ++ "\nData Types: ".toList
    ++ joinSep ", ".toList (List.zipWith pairFmt df.columns df.dtypes)
    ++ "\n\nSample Data:\n".toList
    ++ toCsv { df with rows := df.rows.take 10 }
    ++ "\n\nUser Question: ".toList ++ query
    ++ "\n\nGenerate a SQL query or provide an explanation. Return in ```sql``` fences or start with EXPLANATION:".toList

/-- Observable actions of one run of the `if query and run:` block. -/
inductive Event
  | register (name : List Char)
  | modelCall
  | execute (sql : List Char)
  deriving DecidableEq

/-- The fixed relation name of line 171. -/
def relationName : List Char := "data_df".toList

/-- Terminal states of one pipeline run. -/
inductive PipelineResult (T : Type)
  | ExplanationShown (text : List Char)
  | SqlOnly (sql : List Char)
  | Executed (sql : List Char) (outcome : ExecutionOutcome T)
  | ParseFailed (raw : List Char)
  | ServiceFailed (err : List Char)

/-- Lines 169-247, the body of `if query and run:` — straight-line.  Line 171
registers the dataframe as `data_df` first; lines 195-197 invoke the model;
lines 203-217 parse; lines 220-239 execute unless `sql_only`.  The returned
trace records the order of the externally observable actions. -/
def runPipeline {T : Type}
    (api : List Char → List (Role × List Char) → Except (List Char) (List Char))
    (engine : List Char → Except (List Char) T)
    (df : DataFrame) (query : List Char) (sql_only : Bool) :
    List Event × PipelineResult T :=
  let ev := [Event.register relationName, Event.modelCall]
  match call_groq_model api systemPrompt (buildUserMsg df query) defaultModel with
  | .error e => (ev, .ServiceFailed e)
  | .ok reply =>
    match parseReply reply with
    | .Explanation t => (ev, .ExplanationShown t)
    | .Unrecognized r => (ev, .ParseFailed r)
    | .Sql s =>
      if sql_only then (ev, .SqlOnly s)
      else (ev ++ [Event.execute s], .Executed s (runSql engine s reply))

/-! ### Concrete collaborators used by the witnesses -/

/-- A completion service that fails on every model: the primary error is `3`,
the fallback model's error is `7`. -/
def apiW : List Char → List (Role × List Char) → Except Nat (List Char) :=
  fun m _ => if m = fallbackModel then .error 7 else .error 3

/-- An engine that accepts exactly one query and rejects everything else. -/
def engineW : List Char → Except (List Char) Nat :=
  fun s => if s = "SELECT 1".toList then .ok 1 else .error "Parser Error: syntax error".toList

/-- A two-column, one-row dataset. -/
def dfW : DataFrame :=
  ⟨["id".toList, "amount".toList], ["int64".toList, "float64".toList],
    [["1".toList, "2.5".toList]]⟩

/-! ### Lemmas about the substring-search primitives -/

theorem isPrefixOf_append_self (p s : List Char) : p.isPrefixOf (p ++ s) = true :=
  List.isPrefixOf_iff_prefix.2 (List.prefix_append p s)

theorem isPrefixOf_append_ext {p u : List Char} (v : List Char)
    (h : p.isPrefixOf u = true) : p.isPrefixOf (u ++ v) = true :=
  List.isPrefixOf_iff_prefix.2 ((List.isPrefixOf_iff_prefix.1 h).trans (List.prefix_append u v))

theorem findSub_of_isPrefixOf {pat s : List Char} (h : pat.isPrefixOf s = true) :
    findSub pat s = some 0 := by
  cases s with
  | nil =>
    have hp : pat = [] := by
      cases pat with
      | nil => rfl
      | cons a t => simp [List.isPrefixOf] at h
    simp [findSub, hp]
  | cons c t => simp [findSub, h]

theorem isPrefixOf_cons_of_ne {p0 : Char} {pr : List Char} {c : Char} {s : List Char}
    (h : c ≠ p0) : (p0 :: pr).isPrefixOf (c :: s) = false := by
  simp [List.isPrefixOf]
  intro he
  exact absurd he.symm h

theorem findSub_append_clean {p0 : Char} {pr : List Char} (pre s : List Char)
    (h : ∀ c ∈ pre, c ≠ p0) :
    findSub (p0 :: pr) (pre ++ s) = (findSub (p0 :: pr) s).map (· + pre.length) := by
  induction pre with
  | nil =>
    cases hf : findSub (p0 :: pr) s <;> simp [hf]
  | cons c t ih =>
    have hc : c ≠ p0 := h c (by simp)
    have ht : ∀ x ∈ t, x ≠ p0 := fun x hx => h x (by simp [hx])
    rw [List.cons_append]
    rw [show findSub (p0 :: pr) (c :: (t ++ s))
        = (findSub (p0 :: pr) (t ++ s)).map (· + 1) by
      simp [findSub, isPrefixOf_cons_of_ne hc]]
    rw [ih ht]
    cases findSub (p0 :: pr) s <;> simp [Nat.add_assoc]

theorem findSub_clean_start (pr pre rest : List Char) (hpre : ∀ c ∈ pre, c ≠ backtick) :
    findSub (backtick :: pr) (pre ++ ((backtick :: pr) ++ rest)) = some pre.length := by
  rw [findSub_append_clean pre _ hpre,
    findSub_of_isPrefixOf (isPrefixOf_append_self (backtick :: pr) rest)]
  simp

theorem fenceL_eq : fenceL = backtick :: "``sql".toList := rfl

theorem fenceU_eq : fenceU = backtick :: "``SQL".toList := rfl

theorem fenceClose_eq : fenceClose = backtick :: "``".toList := rfl

theorem extractBetween_decomp (pr : List Char) (pre body post : List Char)
    (hpre : ∀ c ∈ pre, c ≠ backtick) (hbody : ∀ c ∈ body, c ≠ backtick) :
    extractBetween (pre ++ ((backtick :: pr) ++ (body ++ (fenceClose ++ post))))
      (backtick :: pr) = trim body := by
  unfold extractBetween
  rw [findSub_clean_start pr pre _ hpre]
  have hdrop : (pre ++ ((backtick :: pr) ++ (body ++ (fenceClose ++ post)))).drop
      (pre.length + (backtick :: pr).length) = body ++ (fenceClose ++ post) := by
    have hlen : (pre ++ (backtick :: pr)).length = pre.length + (backtick :: pr).length := by
      simp
    rw [← List.append_assoc, ← hlen, List.drop_left]
  simp only [hdrop]
  rw [fenceClose_eq, findSub_clean_start _ body _ hbody, ← fenceClose_eq]
  simp [List.take_left]

theorem containsSub_of_findSub {pat s : List Char} {i : Nat} (h : findSub pat s = some i) :
    containsSub pat s = true := by
  simp [containsSub, h]

theorem isPrefixOf_of_findSub {pat : List Char} :
    ∀ {s : List Char} {i : Nat}, findSub pat s = some i → pat.isPrefixOf (s.drop i) = true := by
  intro s
  induction s with
  | nil =>
    intro i h
    unfold findSub at h
    by_cases hp : pat = []
    · subst hp; simp [List.isPrefixOf]
    · simp [hp] at h
  | cons c t ih =>
    intro i h
    unfold findSub at h
    by_cases hp : pat.isPrefixOf (c :: t) = true
    · rw [if_pos hp] at h
      cases h
      simpa using hp
    · rw [if_neg hp] at h
      cases hft : findSub pat t with
      | none => rw [hft] at h; cases h
      | some j =>
        rw [hft] at h
        simp at h
        subst h
        simpa [List.drop_succ_cons] using ih hft

theorem mem_of_containsSub {pat s : List Char} {c : Char} (hc : c ∈ pat)
    (h : containsSub pat s = true) : c ∈ s := by
  unfold containsSub at h
  cases hf : findSub pat s with
  | none => rw [hf] at h; cases h
  | some i =>
    have hsub : pat <+: s.drop i := List.isPrefixOf_iff_prefix.1 (isPrefixOf_of_findSub hf)
    exact List.mem_of_mem_drop (hsub.subset hc)

theorem containsSub_cons {pat l : List Char} (c : Char) (h : containsSub pat l = true) :
    containsSub pat (c :: l) = true := by
  unfold containsSub at *
  cases hp : pat.isPrefixOf (c :: l) with
  | true => simp [findSub, hp]
  | false =>
    simp only [findSub, hp]
    simpa using h

theorem containsSub_append_right {pat t : List Char} (s : List Char)
    (h : containsSub pat t = true) : containsSub pat (s ++ t) = true := by
  induction s with
  | nil => rw [List.nil_append]; exact h
  | cons c u ih => exact List.cons_append c u t ▸ containsSub_cons c ih

theorem containsSub_nil_pat (s : List Char) : containsSub [] s = true := by
  cases s with
  | nil => simp [containsSub, findSub]
  | cons c t => simp [containsSub, findSub, List.isPrefixOf]

theorem containsSub_append_left {pat s : List Char} (t : List Char)
    (h : containsSub pat s = true) : containsSub pat (s ++ t) = true := by
  induction s with
  | nil =>
    have hp : pat = [] := by
      by_cases hp : pat = []
      · exact hp
      · simp [containsSub, findSub, hp] at h
    subst hp
    exact containsSub_nil_pat t
  | cons c u ih =>
    unfold containsSub at h
    by_cases hp : pat.isPrefixOf (c :: u) = true
    · have h2 : pat.isPrefixOf (c :: (u ++ t)) = true := by
        have h3 := isPrefixOf_append_ext t hp
        rw [List.cons_append] at h3
        exact h3
      simp [containsSub, findSub_of_isPrefixOf h2]
    · rw [show findSub pat (c :: u) = (findSub pat u).map (· + 1) by
        simp [findSub, hp]] at h
      have hu : containsSub pat u = true := by
        unfold containsSub
        cases hf : findSub pat u with
        | none => rw [hf] at h; cases h
        | some j => rfl
      exact List.cons_append c u t ▸ containsSub_cons c (ih hu)

theorem containsSub_of_decomp (pat pre suf : List Char) :
    containsSub pat (pre ++ (pat ++ suf)) = true :=
  containsSub_append_right pre
    (containsSub_append_left suf (by
      unfold containsSub
      rw [findSub_of_isPrefixOf (by
        have h := isPrefixOf_append_self pat ([] : List Char)
        rwa [List.append_nil] at h)]
      rfl))

/-! ### Lemmas about `trim` and `joinSep` -/

theorem trim_eq_nil_of_all_ws {ws : List Char} (h : ∀ c ∈ ws, c.isWhitespace = true) :
    trim ws = [] := by
  unfold trim
  rw [List.dropWhile_eq_nil_iff.2 h]
  simp

theorem all_ws_of_trim_eq_nil {s : List Char} (h : trim s = []) :
    ∀ c ∈ s, c.isWhitespace = true := by
  unfold trim at h
  rw [List.reverse_eq_nil_iff, List.dropWhile_eq_nil_iff] at h
  have h2 : ∀ x ∈ s.dropWhile Char.isWhitespace, x.isWhitespace = true := by
    intro x hx
    exact h x (List.mem_reverse.2 hx)
  intro c hc
  rcases List.mem_append.1 ((List.takeWhile_append_dropWhile Char.isWhitespace s) ▸ hc) with
    h3 | h3
  · exact List.mem_takeWhile_imp h3
  · exact h2 c h3

theorem trim_ne_nil_of_marker {body : List Char} (h : containsSub explMarker body = true) :
    trim body ≠ [] := by
  intro hnil
  have hE : 'E' ∈ body := mem_of_containsSub (by decide) h
  have hw := all_ws_of_trim_eq_nil hnil 'E' hE
  exact absurd hw (by decide)

theorem joinSep_mem_decomp (sep : List Char) {x : List Char} :
    ∀ {xs : List (List Char)}, x ∈ xs → ∃ a b, joinSep sep xs = a ++ (x ++ b) := by
  intro xs
  induction xs with
  | nil => intro h; cases h
  | cons y ys ih =>
    intro h
    cases ys with
    | nil =>
      have hx : x = y := by simpa using h
      exact ⟨[], [], by simp [joinSep, hx]⟩
    | cons z zs =>
      rcases List.mem_cons.1 h with h1 | h2
      · exact ⟨[], sep ++ joinSep sep (z :: zs), by simp [joinSep, h1, List.append_assoc]⟩
      · rcases ih h2 with ⟨a, b, hab⟩
        exact ⟨y ++ sep ++ a, b, by simp [joinSep, hab, List.append_assoc]⟩

/-! ### The parse of a well-delimited fenced response -/

theorem parseReply_fence_decomp (pre body post : List Char)
    (hpre : ∀ c ∈ pre, c ≠ backtick) (hbody : ∀ c ∈ body, c ≠ backtick)
    (hne : trim body ≠ [])
    (hexp : explMarker.isPrefixOf (trim (pre ++ fenceL ++ body ++ fenceClose ++ post)) = false) :
    parseReply (pre ++ fenceL ++ body ++ fenceClose ++ post) = .Sql (trim body) := by
  have hassoc : pre ++ fenceL ++ body ++ fenceClose ++ post
      = pre ++ (fenceL ++ (body ++ (fenceClose ++ post))) := by
    simp [List.append_assoc]
  have hcont : containsSub fenceL (pre ++ fenceL ++ body ++ fenceClose ++ post) = true := by
    refine containsSub_of_findSub (i := pre.length) ?_
    rw [hassoc, fenceL_eq]
    exact findSub_clean_start _ pre _ hpre
  have hext : extractBetween (pre ++ fenceL ++ body ++ fenceClose ++ post) fenceL
      = trim body := by
    rw [hassoc, fenceL_eq]
    exact extractBetween_decomp _ pre body post hpre hbody
  rw [hassoc] at hexp hcont hext ⊢
  simp only [parseReply, extractSql, hexp, hcont, hext]
  simp [hne]

/-! ### Claims -/

/-- C1: a raw model reply whose trimmed text starts with `EXPLANATION:` is
always classified as `Explanation` carrying the full original text, never as
`Sql` — the line-215 check runs before the extracted-SQL dispatch, so the
explanation rule wins even when a ```sql fence occurs later in the reply. -/
theorem parse_explanation_marker_wins (reply : List Char)
    (h : explMarker.isPrefixOf (trim reply) = true) :
    parseReply reply = .Explanation reply ∧ ∀ s, parseReply reply ≠ .Sql s := by
  have he : parseReply reply = .Explanation reply := by
    unfold parseReply
    rw [h]
    simp
  exact ⟨he, fun s hs => by rw [he] at hs; cases hs⟩

/-- C1 witness: a reply starting with the marker and containing a ```sql
fence later is still an `Explanation`. -/
theorem parse_explanation_marker_wins_witness :
    containsSub fenceL "EXPLANATION: no. ```sql SELECT 1 ```".toList = true ∧
    parseReply "EXPLANATION: no. ```sql SELECT 1 ```".toList
      = .Explanation "EXPLANATION: no. ```sql SELECT 1 ```".toList :=
  ⟨by decide, (parse_explanation_marker_wins _ (by decide)).1⟩

/-- C2 counterexample: the claim promises `Sql(body.trim())` "regardless of
the content of prefix and suffix", but a prefix that itself contains the
lower-case fence opener shifts the extraction window: for
`"Use ```sql fences. " + "```sql" + "SELECT 1" + "```"` the code extracts
`"fences."` from the prefix, not `"SELECT 1"`. -/
theorem fenced_sql_prefix_counterexample :
    explMarker.isPrefixOf
      (trim ("Use ```sql fences. ".toList ++ fenceL ++ "SELECT 1".toList ++ fenceClose)) = false ∧
    parseReply ("Use ```sql fences. ".toList ++ fenceL ++ "SELECT 1".toList ++ fenceClose)
      = .Sql "fences.".toList ∧
    ParsedResult.Sql "fences.".toList
      ≠ .Sql (trim "SELECT 1".toList) := by decide

/-- C2 (amended): for a reply `prefix + "```sql" + body + "```" + suffix`
whose trimmed text does not start with the explanation marker, where neither
`prefix` nor `body` contains a backquote and `body` is not whitespace-only,
`parse` returns `Sql(body.trim())` exactly, for every such `prefix`, `body`
and every `suffix`. -/
theorem parse_fenced_sql_clean (pre body post : List Char)
    (hpre : ∀ c ∈ pre, c ≠ backtick) (hbody : ∀ c ∈ body, c ≠ backtick)
    (hne : trim body ≠ [])
    (hexp : explMarker.isPrefixOf (trim (pre ++ fenceL ++ body ++ fenceClose ++ post)) = false) :
    parseReply (pre ++ fenceL ++ body ++ fenceClose ++ post) = .Sql (trim body) :=
  parseReply_fence_decomp pre body post hpre hbody hne hexp

/-- C2 witness: a concrete prefix/body/suffix instance. -/
theorem parse_fenced_sql_clean_witness :
    parseReply ("Answer:\n".toList ++ fenceL ++ "\nSELECT 1\n".toList ++ fenceClose
        ++ " done".toList)
      = .Sql "SELECT 1".toList := by
  have h := parse_fenced_sql_clean "Answer:\n".toList "\nSELECT 1\n".toList " done".toList
    (by decide) (by decide) (by decide) (by decide)
  rw [h]
  rfl

/-- C5 counterexample: the claim says a reply containing `"```sql"` with no
closing fence after it always parses as `Sql` of the trimmed remainder, but
when that remainder is empty the Python truthiness test `elif sql:` fails and
the reply `"```sql"` is classified `Unrecognized`, not `Sql`. -/
theorem unclosed_fence_empty_counterexample :
    containsSub fenceL "```sql".toList = true ∧
    findSub fenceClose (List.drop 6 "```sql".toList) = none ∧
    parseReply "```sql".toList = .Unrecognized "```sql".toList := by decide

/-- C5 (amended): a reply containing the lower-case opener with no closing
fence after it parses as `Sql` of everything after the opener, trimmed —
provided the trimmed reply does not start with the explanation marker and
that remainder is not whitespace-only (a whitespace-only remainder yields
`Unrecognized` instead). -/
theorem parse_unclosed_fence (reply : List Char) (i : Nat)
    (hfind : findSub fenceL reply = some i)
    (hclose : findSub fenceClose (reply.drop (i + 6)) = none)
    (hexp : explMarker.isPrefixOf (trim reply) = false)
    (hne : trim (reply.drop (i + 6)) ≠ []) :
    parseReply reply = .Sql (trim (reply.drop (i + 6))) := by
  have hcont : containsSub fenceL reply = true := containsSub_of_findSub hfind
  have hlen : fenceL.length = 6 := rfl
  have hext : extractBetween reply fenceL = trim (reply.drop (i + 6)) := by
    unfold extractBetween
    rw [hfind]
    simp only [hlen, hclose]
  simp [parseReply, extractSql, hexp, hcont, hext, hne]

/-- C5 witness: an unclosed fence with a non-empty remainder. -/
theorem parse_unclosed_fence_witness :
    parseReply "bla ```sql SELECT 2".toList = .Sql "SELECT 2".toList := by
  have h := parse_unclosed_fence "bla ```sql SELECT 2".toList 4
    (by decide) (by decide) (by decide) (by decide)
  rw [h]
  rfl

/-- C6: with no explanation marker at the start and no fence opener of either
case anywhere, the reply parses as `Sql` of the entire trimmed text exactly
when the trimmed text starts with the case-sensitive token `SELECT`, and as
`Unrecognized` carrying the raw text otherwise. -/
theorem parse_bare_select_dispatch (reply : List Char)
    (hL : containsSub fenceL reply = false) (hU : containsSub fenceU reply = false)
    (hexp : explMarker.isPrefixOf (trim reply) = false) :
    (parseReply reply = .Sql (trim reply) ↔ selectTok.isPrefixOf (trim reply) = true) ∧
    (selectTok.isPrefixOf (trim reply) = false → parseReply reply = .Unrecognized reply) := by
  cases hsel : selectTok.isPrefixOf (trim reply) with
  | false =>
    have hp : parseReply reply = .Unrecognized reply := by
      simp only [parseReply, extractSql, hexp, hL, hU, hsel]
      simp
    refine ⟨?_, fun _ => hp⟩
    rw [hp]
    simp [hsel]
  | true =>
    have hne : trim reply ≠ [] := by
      intro h0
      rw [h0] at hsel
      exact absurd hsel (by decide)
    have hp : parseReply reply = .Sql (trim reply) := by
      simp only [parseReply, extractSql, hexp, hL, hU, hsel]
      simp [hne]
    refine ⟨?_, fun hf => ?_⟩
    · rw [hp]
      simp
    · simp at hf

/-- C6 witness: `"SELECT 1"` parses as `Sql("SELECT 1")` and
`"I cannot answer this."` parses as `Unrecognized`. -/
theorem parse_bare_select_dispatch_witness :
    parseReply "SELECT 1".toList = .Sql "SELECT 1".toList ∧
    parseReply "I cannot answer this.".toList
      = .Unrecognized "I cannot answer this.".toList := by
  constructor
  · have h := (parse_bare_select_dispatch "SELECT 1".toList
      (by decide) (by decide) (by decide)).1
    have e : trim "SELECT 1".toList = "SELECT 1".toList := by decide
    rw [← e]
    exact h.2 (by decide)
  · exact (parse_bare_select_dispatch "I cannot answer this.".toList
      (by decide) (by decide) (by decide)).2 (by decide)

/-- C7: a reply whose trimmed text does not start with the explanation marker
but which carries the marker inside a ```sql fenced block is extracted as
`Sql` of the fenced content (the embedded marker text included) — it is not
classified as `Explanation`. -/
theorem parse_marker_inside_fence (pre body post : List Char)
    (hpre : ∀ c ∈ pre, c ≠ backtick) (hbody : ∀ c ∈ body, c ≠ backtick)
    (hmark : containsSub explMarker body = true)
    (hexp : explMarker.isPrefixOf (trim (pre ++ fenceL ++ body ++ fenceClose ++ post)) = false) :
    parseReply (pre ++ fenceL ++ body ++ fenceClose ++ post) = .Sql (trim body) :=
  parseReply_fence_decomp pre body post hpre hbody (trim_ne_nil_of_marker hmark) hexp

/-- C7 witness: the marker sits inside the fenced block and the result is
still `Sql`, with the marker text preserved in the extracted string. -/
theorem parse_marker_inside_fence_witness :
    parseReply ("Note:\n".toList ++ fenceL ++ "\nSELECT 'EXPLANATION: ok'\n".toList
        ++ fenceClose ++ [])
      = .Sql "SELECT 'EXPLANATION: ok'".toList := by
  have h := parse_marker_inside_fence "Note:\n".toList "\nSELECT 'EXPLANATION: ok'\n".toList []
    (by decide) (by decide) (by decide) (by decide)
  rw [h]
  rfl

/-- C9: a fenced block (of either case) whose content between the opener and
the next closing fence is empty or whitespace-only strips to the empty
string, which the truthiness test `elif sql:` rejects — the reply is
classified `Unrecognized` carrying the raw text, never `Sql("")`.  (For the
upper-case branch the reply must contain no lower-case opener, which is
dispatched first.) -/
theorem parse_empty_fence_unrecognized (pre ws post : List Char)
    (hpre : ∀ c ∈ pre, c ≠ backtick)
    (hws : ∀ c ∈ ws, c.isWhitespace = true) :
    (explMarker.isPrefixOf (trim (pre ++ fenceL ++ ws ++ fenceClose ++ post)) = false →
      parseReply (pre ++ fenceL ++ ws ++ fenceClose ++ post)
        = .Unrecognized (pre ++ fenceL ++ ws ++ fenceClose ++ post)) ∧
    (containsSub fenceL (pre ++ fenceU ++ ws ++ fenceClose ++ post) = false →
      explMarker.isPrefixOf (trim (pre ++ fenceU ++ ws ++ fenceClose ++ post)) = false →
      parseReply (pre ++ fenceU ++ ws ++ fenceClose ++ post)
        = .Unrecognized (pre ++ fenceU ++ ws ++ fenceClose ++ post)) := by
  have hwsbt : ∀ c ∈ ws, c ≠ backtick := fun c hc heq =>
    absurd (heq ▸ hws c hc) (by decide)
  have htrim : trim ws = [] := trim_eq_nil_of_all_ws hws
  constructor
  · intro hexp
    have hassoc : pre ++ fenceL ++ ws ++ fenceClose ++ post
        = pre ++ (fenceL ++ (ws ++ (fenceClose ++ post))) := by
      simp [List.append_assoc]
    have hcont : containsSub fenceL (pre ++ fenceL ++ ws ++ fenceClose ++ post) = true := by
      refine containsSub_of_findSub (i := pre.length) ?_
      rw [hassoc, fenceL_eq]
      exact findSub_clean_start _ pre _ hpre
    have hext : extractBetween (pre ++ fenceL ++ ws ++ fenceClose ++ post) fenceL = [] := by
      rw [hassoc, fenceL_eq]
      rw [extractBetween_decomp _ pre ws post hpre hwsbt]
      exact htrim
    rw [hassoc] at hexp hcont hext ⊢
    simp only [parseReply, extractSql, hexp, hcont, hext]
    simp
  · intro hL hexp
    have hassoc : pre ++ fenceU ++ ws ++ fenceClose ++ post
        = pre ++ (fenceU ++ (ws ++ (fenceClose ++ post))) := by
      simp [List.append_assoc]
    have hcont : containsSub fenceU (pre ++ fenceU ++ ws ++ fenceClose ++ post) = true := by
      refine containsSub_of_findSub (i := pre.length) ?_
      rw [hassoc, fenceU_eq]
      exact findSub_clean_start _ pre _ hpre
    have hext : extractBetween (pre ++ fenceU ++ ws ++ fenceClose ++ post) fenceU = [] := by
      rw [hassoc, fenceU_eq]
      rw [extractBetween_decomp _ pre ws post hpre hwsbt]
      exact htrim
    rw [hassoc] at hL hexp hcont hext ⊢
    simp only [parseReply, extractSql, hexp, hL, hcont, hext]
    simp

/-- C9 witness: whitespace-only content in a lower-case and in an upper-case
fence, both `Unrecognized`. -/
theorem parse_empty_fence_unrecognized_witness :
    parseReply ("x: ".toList ++ fenceL ++ "  ".toList ++ fenceClose ++ " y".toList)
      = .Unrecognized ("x: ".toList ++ fenceL ++ "  ".toList ++ fenceClose ++ " y".toList) ∧
    parseReply ("no lower ".toList ++ fenceU ++ "  ".toList ++ fenceClose ++ " y".toList)
      = .Unrecognized ("no lower ".toList ++ fenceU ++ "  ".toList ++ fenceClose
          ++ " y".toList) := by
  constructor
  · exact (parse_empty_fence_unrecognized "x: ".toList "  ".toList " y".toList
      (by decide) (by decide)).1 (by decide)
  · exact (parse_empty_fence_unrecognized "no lower ".toList "  ".toList " y".toList
      (by decide) (by decide)).2 (by decide) (by decide)

/-- C3: when the primary completion call fails and the model name contains
`"mixtral"` case-insensitively, exactly one retry is made against the
fallback model with the same messages — a successful fallback's content is
returned, and a failing fallback surfaces the primary call's original error,
not the fallback's.  A model name without the marker propagates the primary
failure with no fallback attempt. -/
theorem call_groq_model_fallback_policy {E : Type}
    (api : List Char → List (Role × List Char) → Except E (List Char))
    (system user_msg model : List Char) (e : E)
    (h : api model (mkMessages system user_msg) = .error e) :
    (containsSub mixtralMarker (lowerStr model) = true →
      (∀ c, api fallbackModel (mkMessages system user_msg) = .ok c →
        call_groq_model api system user_msg model = .ok c) ∧
      (∀ e', api fallbackModel (mkMessages system user_msg) = .error e' →
        call_groq_model api system user_msg model = .error e)) ∧
    (containsSub mixtralMarker (lowerStr model) = false →
      call_groq_model api system user_msg model = .error e) := by
  refine ⟨fun hm => ⟨fun c hc => ?_, fun e' he' => ?_⟩, fun hm => ?_⟩
  · simp [call_groq_model, h, hm, hc]
  · simp [call_groq_model, h, hm, he']
  · simp [call_groq_model, h, hm]

/-- C3 witness: both calls fail (`apiW`); the surfaced error is the primary's
`3`, not the fallback's `7`. -/
theorem call_groq_model_fallback_policy_witness :
    call_groq_model apiW "s".toList "u".toList "mixtral-8x7b-32768".toList
      = .error 3 :=
  ((call_groq_model_fallback_policy apiW "s".toList "u".toList
      "mixtral-8x7b-32768".toList 3 (by rfl)).1 (by decide)).2 7 (by rfl)

/-- C4: an engine-level error on the extracted SQL yields a `Failure`
carrying the surfaced message (a non-empty string holding the engine's
message verbatim) together with the raw model reply; `runSql` is a total
function, so the error never propagates past the execution boundary, and a
`Success` outcome carries only the result table, never the raw reply. -/
theorem runSql_failure_success {T : Type} (engine : List Char → Except (List Char) T)
    (sql raw : List Char) :
    (∀ e, engine sql = .error e →
      runSql engine sql raw = .Failure (sqlErrorText e) raw ∧
      sqlErrorText e ≠ [] ∧ containsSub e (sqlErrorText e) = true) ∧
    (∀ res, engine sql = .ok res → runSql engine sql raw = .Success res) := by
  constructor
  · intro e he
    refine ⟨by simp [runSql, he], fun hx => ?_, ?_⟩
    · rw [sqlErrorText, List.append_eq_nil] at hx
      exact absurd hx.1 (by decide)
    · rw [sqlErrorText]
      have h := containsSub_of_decomp e "❌ SQL Execution Error: ".toList []
      rwa [List.append_nil] at h
  · intro res hr
    simp [runSql, hr]

/-- C4 witness: a rejected query ends as `Failure` retaining the engine
message and the raw reply. -/
theorem runSql_failure_success_witness :
    runSql engineW "SELEKT * FROM x".toList "raw reply".toList
      = .Failure (sqlErrorText "Parser Error: syntax error".toList) "raw reply".toList :=
  ((runSql_failure_success engineW "SELEKT * FROM x".toList "raw reply".toList).1
    "Parser Error: syntax error".toList (by rfl)).1

/-- C8: the constructed user prompt is a deterministic function of the
dataset's schema (names and dtypes), its first ten rows, and the question; it
contains every column name and every `name(dtype)` pair as substrings with no
cap on the column count, and the embedded sample holds at most the first ten
rows of the dataset. -/
theorem buildUserMsg_complete (df : DataFrame) (query : List Char) :
    (∀ df' query', df.columns = df'.columns → df.dtypes = df'.dtypes →
      df.rows.take 10 = df'.rows.take 10 → query = query' →
      buildUserMsg df query = buildUserMsg df' query') ∧
    (∀ name, name ∈ df.columns → containsSub name (buildUserMsg df query) = true) ∧
    (∀ p, p ∈ List.zipWith pairFmt df.columns df.dtypes →
      containsSub p (buildUserMsg df query) = true) ∧
    (df.rows.take 10).length ≤ 10 := by
  refine ⟨fun df' query' h1 h2 h3 h4 => ?_, fun name hmem => ?_, fun p hmem => ?_, ?_⟩
  · simp [buildUserMsg, toCsv, h1, h2, h3, h4]
  · rcases joinSep_mem_decomp ([',', ' '] : List Char) hmem with ⟨a, b, hab⟩
    have hrep : buildUserMsg df query
        = ("Dataset Info:\nColumns: ".toList ++ a) ++ (name ++ (b
            ++ ("\nData Types: ".toList
              ++ joinSep ", ".toList (List.zipWith pairFmt df.columns df.dtypes)
              ++ "\n\nSample Data:\n".toList
              ++ toCsv { df with rows := df.rows.take 10 }
              ++ "\n\nUser Question: ".toList ++ query
              ++ "\n\nGenerate a SQL query or provide an explanation. Return in ```sql``` fences or start with EXPLANATION:".toList))) := by
      simp [buildUserMsg, hab, List.append_assoc]
    rw [hrep]
    exact containsSub_of_decomp name _ _
  · rcases joinSep_mem_decomp ([',', ' '] : List Char) hmem with ⟨a, b, hab⟩
    have hrep : buildUserMsg df query
        = ("Dataset Info:\nColumns: ".toList ++ joinSep ", ".toList df.columns
            ++ "\nData Types: ".toList ++ a) ++ (p ++ (b
              ++ ("\n\nSample Data:\n".toList
                ++ toCsv { df with rows := df.rows.take 10 }
                ++ "\n\nUser Question: ".toList ++ query
                ++ "\n\nGenerate a SQL query or provide an explanation. Return in ```sql``` fences or start with EXPLANATION:".toList))) := by
      simp [buildUserMsg, hab, List.append_assoc]
    rw [hrep]
    exact containsSub_of_decomp p _ _
  · simp [List.length_take]

/-- C8 witness: both column names and a `name(dtype)` pair occur in the
prompt built for the concrete two-column dataset `dfW`. -/
theorem buildUserMsg_complete_witness :
    containsSub "id".toList (buildUserMsg dfW "average?".toList) = true ∧
    containsSub "amount".toList (buildUserMsg dfW "average?".toList) = true ∧
    containsSub (pairFmt "amount".toList "float64".toList)
      (buildUserMsg dfW "average?".toList) = true ∧
    (dfW.rows.take 10).length ≤ 10 := by
  have h := buildUserMsg_complete dfW "average?".toList
  exact ⟨h.2.1 _ (by decide), h.2.1 _ (by decide), h.2.2.1 _ (by decide), h.2.2.2⟩

/-- C10: every run of the pipeline registers the dataset under `data_df` as
its first action, invokes the model second, and performs at most execution
actions afterwards — so no SQL execution in a run precedes that run's
registration, and the registration happens on every run, including those
ending in `ExplanationShown`, `SqlOnly`, `ParseFailed` or `ServiceFailed`. -/
theorem pipeline_register_first {T : Type}
    (api : List Char → List (Role × List Char) → Except (List Char) (List Char))
    (engine : List Char → Except (List Char) T)
    (df : DataFrame) (query : List Char) (sql_only : Bool) :
    ∃ tail, (runPipeline api engine df query sql_only).1
        = Event.register relationName :: Event.modelCall :: tail ∧
      ∀ ev ∈ tail, ∃ s, ev = Event.execute s := by
  unfold runPipeline
  cases h : call_groq_model api systemPrompt (buildUserMsg df query) defaultModel with
  | error e => exact ⟨[], by simp, by simp⟩
  | ok reply =>
    cases hp : parseReply reply with
    | Explanation t => exact ⟨[], by simp [hp], by simp⟩
    | Unrecognized r => exact ⟨[], by simp [hp], by simp⟩
    | Sql s =>
      cases sql_only with
      | true => exact ⟨[], by simp [hp], by simp⟩
      | false =>
        refine ⟨[Event.execute s], by simp [hp], ?_⟩
        intro ev hev
        exact ⟨s, by simpa using hev⟩

end AIDataAnalyst
